import Mathlib

/-! # Verification of the OceanView time-series reader

A shallow embedding of `src/ixdat/readers/oceanview.py`
(`OceanViewTimeSeriesReader`).  Python strings are modelled as Lean
`String`s (manipulated through their character lists), CPython's
`strptime`/regex behaviour is modelled directly for the format strings and
patterns that occur in the source, and IEEE floating point is idealised as
exact rationals extended with `nan`/`inf` sentinels (`PyFloat`): no claim
under study depends on rounding, while the nan/inf propagation of the
source is modelled faithfully.  The file to read is modelled as its list
of lines (the result of `readlines`, with line terminators dropped; no
claim depends on the terminators).  `datetime.timestamp()` on a naive
datetime uses the local timezone in CPython; it is modelled here as the
UTC epoch value — all local offsets are whole seconds, so the sub-second
behaviour studied below is unaffected.
-/

namespace OceanView

/-- Python `\s` (ASCII range, as used by `str.strip`, `str.split`,
`re` `\s` on the ASCII inputs considered here). -/
def isPySpace (c : Char) : Bool :=
  decide (c ∈ [' ', '\t', '\n', '\r', '\x0b', '\x0c'])

/-- Python regex `\w` (ASCII range): letters, digits, underscore. -/
def isWordChar (c : Char) : Bool :=
  c.isAlpha || c.isDigit || c = '_'

/-- ASCII lowercase of one character (Python `str.lower` on ASCII data). -/
def lowerChar (c : Char) : Char :=
  if 'A' ≤ c ∧ c ≤ 'Z' then Char.ofNat (c.toNat + 32) else c

/-- Python `str.lower()` (ASCII data). -/
def pyLower (s : String) : String :=
  ⟨s.data.map lowerChar⟩

/-- Strip `isPySpace` characters from both ends of a character list. -/
def stripChars (l : List Char) : List Char :=
  ((l.dropWhile isPySpace).reverse.dropWhile isPySpace).reverse

/-- Python `str.strip()`. -/
def pyStrip (s : String) : String :=
  ⟨stripChars s.data⟩

/-- Split before/after the first occurrence of a character:
`some (before, after)` when present, `none` otherwise.
Models Python `s.split(ch, 1)` (when the separator occurs) and the
`ch in s` test. -/
def breakAtFirst (ch : Char) : List Char → Option (List Char × List Char)
  | [] => none
  | c :: cs =>
    if c = ch then some ([], cs)
    else (breakAtFirst ch cs).map (fun p => (c :: p.1, p.2))

/-- Whitespace-run split, dropping empty pieces: Python `str.split()`
with no arguments (and `re.split(r"[\s\t]+", s)` on a stripped `s`,
followed by the source's `if p` filter — the two produce the same
token list there). -/
def splitWsGo : List Char → List Char → List (List Char)
  | [], acc => if acc = [] then [] else [acc.reverse]
  | c :: cs, acc =>
    if isPySpace c then
      if acc = [] then splitWsGo cs [] else acc.reverse :: splitWsGo cs []
    else splitWsGo cs (c :: acc)

/-- Python `str.split()` (no argument). -/
def pySplitWs (s : String) : List String :=
  (splitWsGo s.data []).map (fun l => ⟨l⟩)

/-- Split at every single whitespace character, keeping empty pieces:
Python `re.split(r"[\s\t]", s)`.  (`[\s\t]` is a single-character class,
so consecutive separators yield empty strings.) -/
def splitSingleGo : List Char → List Char → List (List Char)
  | [], acc => [acc.reverse]
  | c :: cs, acc =>
    if isPySpace c then acc.reverse :: splitSingleGo cs []
    else splitSingleGo cs (c :: acc)

/-- Python `re.split(r"[\s\t]", s)`. -/
def pySplitSingle (s : String) : List String :=
  (splitSingleGo s.data []).map (fun l => ⟨l⟩)

/-- `s.replace(",", ".")` — the comma-decimal normalisation used at every
numeric-conversion site of the reader. -/
def commaFix (s : String) : String :=
  ⟨s.data.map (fun c => if c = ',' then '.' else c)⟩

/-! ## Idealised Python floats -/

/-- A Python float value, idealised: finite values are exact rationals,
plus the `nan` and `±inf` sentinels the source can produce
(`float("nan")`, `np.nan`, `float("inf")`, …). -/
inductive PyFloat
  | fin (q : ℚ)
  | pinf
  | ninf
  | nan
deriving DecidableEq, Repr

/-- IEEE subtraction on idealised floats (`np.array(rel_times) -
rel_times[0]`): finite minus finite is exact, any `nan` operand gives
`nan`, and equal infinities give `nan`. -/
def psub : PyFloat → PyFloat → PyFloat
  | .fin a, .fin b => .fin (a - b)
  | .fin _, .pinf => .ninf
  | .fin _, .ninf => .pinf
  | .pinf, .fin _ => .pinf
  | .ninf, .fin _ => .ninf
  | .pinf, .pinf => .nan
  | .pinf, .ninf => .pinf
  | .ninf, .pinf => .ninf
  | .ninf, .ninf => .nan
  | .nan, _ => .nan
  | _, .nan => .nan

/-- Digit run with Python underscore grouping (`float("1_000")` is legal:
an underscore must sit between two digits).  Returns the value, the
number of digits consumed (underscores excluded), and the rest.  The
fuel argument only drives termination: every step consumes at least one
character, so `digitsU` below never exhausts it. -/
def digitsUGo : ℕ → List Char → ℕ → ℕ → Option (ℕ × ℕ × List Char)
  | _, [], v, n => if n = 0 then none else some (v, n, [])
  | 0, l, v, n => if n = 0 then none else some (v, n, l)
  | fuel + 1, c :: cs, v, n =>
    if c.isDigit then
      match cs with
      | '_' :: d :: rest =>
        if d.isDigit then
          digitsUGo fuel (d :: rest) (10 * v + (c.toNat - 48)) (n + 1)
        else some (10 * v + (c.toNat - 48), n + 1, '_' :: d :: rest)
      | _ => digitsUGo fuel cs (10 * v + (c.toNat - 48)) (n + 1)
    else if n = 0 then none else some (v, n, c :: cs)

/-- Digit run with underscore grouping, starting from value `v` with `n`
digits already read. -/
def digitsU (l : List Char) (v n : ℕ) : Option (ℕ × ℕ × List Char) :=
  digitsUGo l.length l v n

/-- Exponent part `e±ddd` of a Python float literal. -/
def expPart : List Char → Option ℤ
  | c :: cs =>
    if c = 'e' ∨ c = 'E' then
      let (sgn, cs') : ℤ × List Char :=
        match cs with
        | '+' :: r => (1, r)
        | '-' :: r => (-1, r)
        | r => (1, r)
      match digitsU cs' 0 0 with
      | some (v, _, []) => some (sgn * v)
      | _ => none
    else none
  | [] => none

/-- Numeric body of a Python float literal (after sign):
`digits [. digits] [exp]` or `. digits [exp]`. -/
def floatBody (cs : List Char) : Option ℚ :=
  match digitsU cs 0 0 with
  | some (ip, _, rest) =>
    match rest with
    | [] => some ip
    | '.' :: rest' =>
      match digitsU rest' 0 0 with
      | some (fv, fn, rest'') =>
        let m : ℚ := ip + (fv : ℚ) / ((10 : ℚ) ^ fn)
        match rest'' with
        | [] => some m
        | r =>
          match expPart r with
          | some e =>
            some (if 0 ≤ e then m * 10 ^ e.toNat else m / 10 ^ (-e).toNat)
          | none => none
      | none =>
        -- "1." with no fractional digits
        match rest' with
        | [] => some ip
        | r =>
          match expPart r with
          | some e =>
            some (if 0 ≤ e then (ip : ℚ) * 10 ^ e.toNat
                  else (ip : ℚ) / 10 ^ (-e).toNat)
          | none => none
    | r =>
      match expPart r with
      | some e =>
        some (if 0 ≤ e then (ip : ℚ) * 10 ^ e.toNat
              else (ip : ℚ) / 10 ^ (-e).toNat)
      | none => none
  | none =>
    match cs with
    | '.' :: rest =>
      match digitsU rest 0 0 with
      | some (fv, fn, rest') =>
        let m : ℚ := (fv : ℚ) / ((10 : ℚ) ^ fn)
        match rest' with
        | [] => some m
        | r =>
          match expPart r with
          | some e =>
            some (if 0 ≤ e then m * 10 ^ e.toNat else m / 10 ^ (-e).toNat)
          | none => none
      | none => none
    | _ => none

/-- Python `float(s)`: `some` of the parsed value, `none` when the call
raises `ValueError`.  Handles surrounding whitespace, an optional sign,
`inf`/`infinity`/`nan` (case-insensitively), and numeric literals with
underscore grouping. -/
def pyFloat (s : String) : Option PyFloat :=
  let cs := stripChars s.data
  let (neg, body) : Bool × List Char :=
    match cs with
    | '+' :: r => (false, r)
    | '-' :: r => (true, r)
    | r => (false, r)
  let low : List Char := body.map lowerChar
  if low = "inf".data ∨ low = "infinity".data then
    some (if neg then .ninf else .pinf)
  else if low = "nan".data then
    some .nan
  else
    match floatBody body with
    | some q => some (.fin (if neg then -q else q))
    | none => none

/-! ## CPython `strptime` for the format strings of the source

`datetime.strptime` compiles the format to a regex (`_strptime.py`):
whitespace in the format becomes `\s+`, other literals match themselves,
and each directive becomes a fixed alternation (tried left to right, e.g.
`%H` is `2[0-3]|[0-1]\d|\d`), with the whole input required to match.
For the nine format strings of the source every directive is separated
from the next by a literal (`:`, `-`, `.`) or whitespace, so the regex
match is equivalent to the greedy first-alternative scan implemented
here (no cross-directive backtracking can change the outcome).  After
matching, the `datetime` constructor validates the fields
(`ValueError` on e.g. day 31 of a 30-day month or second 61), which the
format loops of the source catch like any other mismatch. -/

/-- Parsed `datetime` fields, with CPython's `strptime` defaults. -/
structure DT where
  year : ℕ := 1900
  month : ℕ := 1
  day : ℕ := 1
  hour : ℕ := 0
  minute : ℕ := 0
  second : ℕ := 0
  microsecond : ℕ := 0
deriving DecidableEq, Repr

/-- One directive of a compiled `strptime` format. -/
inductive Dir
  | lit (c : Char)
  | ws
  | dA
  | dB
  | dd
  | dH
  | dM
  | dS
  | dY
  | dm
  | df
deriving DecidableEq, Repr

/-- Numeric value of a digit character. -/
def digi (c : Char) : ℕ := c.toNat - 48

/-- `%H`: regex `2[0-3]|[0-1]\d|\d`. -/
def pH : List Char → Option (ℕ × List Char)
  | c1 :: c2 :: rest =>
    if c1 = '2' ∧ '0' ≤ c2 ∧ c2 ≤ '3' then some (20 + digi c2, rest)
    else if (c1 = '0' ∨ c1 = '1') ∧ c2.isDigit then
      some (10 * digi c1 + digi c2, rest)
    else if c1.isDigit then some (digi c1, c2 :: rest)
    else none
  | [c1] => if c1.isDigit then some (digi c1, []) else none
  | [] => none

/-- `%M`: regex `[0-5]\d|\d`. -/
def pM : List Char → Option (ℕ × List Char)
  | c1 :: c2 :: rest =>
    if '0' ≤ c1 ∧ c1 ≤ '5' ∧ c2.isDigit then
      some (10 * digi c1 + digi c2, rest)
    else if c1.isDigit then some (digi c1, c2 :: rest)
    else none
  | [c1] => if c1.isDigit then some (digi c1, []) else none
  | [] => none

/-- `%S`: regex `6[0-1]|[0-5]\d|\d`. -/
def pS : List Char → Option (ℕ × List Char)
  | c1 :: c2 :: rest =>
    if c1 = '6' ∧ (c2 = '0' ∨ c2 = '1') then some (60 + digi c2, rest)
    else if '0' ≤ c1 ∧ c1 ≤ '5' ∧ c2.isDigit then
      some (10 * digi c1 + digi c2, rest)
    else if c1.isDigit then some (digi c1, c2 :: rest)
    else none
  | [c1] => if c1.isDigit then some (digi c1, []) else none
  | [] => none

/-- `%d`: regex `3[01]|[12]\d|0[1-9]|[1-9]| [1-9]`. -/
def pD : List Char → Option (ℕ × List Char)
  | c1 :: c2 :: rest =>
    if c1 = '3' ∧ (c2 = '0' ∨ c2 = '1') then some (30 + digi c2, rest)
    else if (c1 = '1' ∨ c1 = '2') ∧ c2.isDigit then
      some (10 * digi c1 + digi c2, rest)
    else if c1 = '0' ∧ '1' ≤ c2 ∧ c2 ≤ '9' then some (digi c2, rest)
    else if '1' ≤ c1 ∧ c1 ≤ '9' then some (digi c1, c2 :: rest)
    else if c1 = ' ' ∧ '1' ≤ c2 ∧ c2 ≤ '9' then some (digi c2, rest)
    else none
  | [c1] => if '1' ≤ c1 ∧ c1 ≤ '9' then some (digi c1, []) else none
  | [] => none

/-- `%m`: regex `1[0-2]|0[1-9]|[1-9]`. -/
def pMon : List Char → Option (ℕ × List Char)
  | c1 :: c2 :: rest =>
    if c1 = '1' ∧ '0' ≤ c2 ∧ c2 ≤ '2' then some (10 + digi c2, rest)
    else if c1 = '0' ∧ '1' ≤ c2 ∧ c2 ≤ '9' then some (digi c2, rest)
    else if '1' ≤ c1 ∧ c1 ≤ '9' then some (digi c1, c2 :: rest)
    else none
  | [c1] => if '1' ≤ c1 ∧ c1 ≤ '9' then some (digi c1, []) else none
  | [] => none

/-- `%Y`: regex `\d\d\d\d`. -/
def pY : List Char → Option (ℕ × List Char)
  | c1 :: c2 :: c3 :: c4 :: rest =>
    if c1.isDigit ∧ c2.isDigit ∧ c3.isDigit ∧ c4.isDigit then
      some (1000 * digi c1 + 100 * digi c2 + 10 * digi c3 + digi c4, rest)
    else none
  | _ => none

/-- `%f`: regex `[0-9]{1,6}` (greedy), value right-padded with zeros to
six digits (microseconds). -/
def pF (cs : List Char) : Option (ℕ × List Char) :=
  let ds := (cs.takeWhile Char.isDigit).take 6
  if ds = [] then none
  else some ((ds.foldl (fun a c => 10 * a + digi c) 0) * 10 ^ (6 - ds.length),
             cs.drop ds.length)

/-- Case-insensitive literal word match (used for `%a`/`%b`
alternations, whose locale entries are all lowercase). -/
def matchCIWord : List Char → List Char → Option (List Char)
  | [], cs => some cs
  | _ :: _, [] => none
  | p :: ps, c :: cs =>
    if lowerChar c = p then matchCIWord ps cs else none

/-- `%a`: abbreviated weekday names (parsed, never validated against the
date by CPython). -/
def pWeekday (cs : List Char) : Option (List Char) :=
  let names := ["mon", "tue", "wed", "thu", "fri", "sat", "sun"]
  names.foldl (fun acc nm => acc <|> matchCIWord nm.data cs) none

/-- `%b`: abbreviated month names, giving the month number. -/
def pMonName (cs : List Char) : Option (ℕ × List Char) :=
  let names := ["jan", "feb", "mar", "apr", "may", "jun",
                "jul", "aug", "sep", "oct", "nov", "dec"]
  (List.range names.length).foldl
    (fun acc i =>
      acc <|> (matchCIWord (names.getD i "").data cs).map (fun r => (i + 1, r)))
    none

/-- Run one directive against the input, updating the parsed fields. -/
def stepDir : Dir → DT → List Char → Option (DT × List Char)
  | .lit c, dt, x :: rest => if x = c then some (dt, rest) else none
  | .lit _, _, [] => none
  | .ws, dt, x :: rest =>
    if isPySpace x then some (dt, rest.dropWhile isPySpace) else none
  | .ws, _, [] => none
  | .dA, dt, cs => (pWeekday cs).map (fun r => (dt, r))
  | .dB, dt, cs => (pMonName cs).map (fun p => ({dt with month := p.1}, p.2))
  | .dd, dt, cs => (pD cs).map (fun p => ({dt with day := p.1}, p.2))
  | .dH, dt, cs => (pH cs).map (fun p => ({dt with hour := p.1}, p.2))
  | .dM, dt, cs => (pM cs).map (fun p => ({dt with minute := p.1}, p.2))
  | .dS, dt, cs => (pS cs).map (fun p => ({dt with second := p.1}, p.2))
  | .dY, dt, cs => (pY cs).map (fun p => ({dt with year := p.1}, p.2))
  | .dm, dt, cs => (pMon cs).map (fun p => ({dt with month := p.1}, p.2))
  | .df, dt, cs => (pF cs).map (fun p => ({dt with microsecond := p.1}, p.2))

/-- Run a whole format; the full input must be consumed
(`unconverted data remains` otherwise). -/
def runFmt : List Dir → DT → List Char → Option DT
  | [], dt, [] => some dt
  | [], _, _ :: _ => none
  | d :: ds, dt, cs =>
    match stepDir d dt cs with
    | some (dt', cs') => runFmt ds dt' cs'
    | none => none

/-- Leap year (proleptic Gregorian, as `datetime`). -/
def isLeap (y : ℕ) : Bool := y % 4 = 0 ∧ (y % 100 ≠ 0 ∨ y % 400 = 0)

/-- Days in a month. -/
def daysInMonth (y m : ℕ) : ℕ :=
  if m = 2 then (if isLeap y then 29 else 28)
  else if m = 4 ∨ m = 6 ∨ m = 9 ∨ m = 11 then 30
  else 31

/-- The `datetime` constructor's range validation (reached with the
fields produced by `strptime`; out-of-range fields raise `ValueError`,
caught by the source's format loops like a match failure). -/
def validDT (dt : DT) : Bool :=
  1 ≤ dt.year ∧ dt.year ≤ 9999 ∧
  1 ≤ dt.month ∧ dt.month ≤ 12 ∧
  1 ≤ dt.day ∧ dt.day ≤ daysInMonth dt.year dt.month ∧
  dt.hour ≤ 23 ∧ dt.minute ≤ 59 ∧ dt.second ≤ 59 ∧ dt.microsecond ≤ 999999

/-- `datetime.strptime(s, fmt)`: `some` of the parsed datetime, `none`
when a `ValueError` is raised. -/
def strptime (fmt : List Dir) (s : String) : Option DT :=
  match runFmt fmt {} s.data with
  | some dt => if validDT dt then some dt else none
  | none => none

/-- Try formats in order, first success wins (the `for fmt in fmts:
try: … except ValueError: continue` pattern of the source). -/
def tryFmts : List (List Dir) → String → Option DT
  | [], _ => none
  | f :: fs, s =>
    match strptime f s with
    | some dt => some dt
    | none => tryFmts fs s

/-- `"%a %b %d %H:%M:%S %Y"`. -/
def fmtHeader1 : List Dir :=
  [.dA, .ws, .dB, .ws, .dd, .ws, .dH, .lit ':', .dM, .lit ':', .dS, .ws, .dY]

/-- `"%b %d %H:%M:%S %Y"`. -/
def fmtHeader2 : List Dir :=
  [.dB, .ws, .dd, .ws, .dH, .lit ':', .dM, .lit ':', .dS, .ws, .dY]

/-- `"%a %b %d %H:%M:%S.%f %Y"`. -/
def fmtHeader3 : List Dir :=
  [.dA, .ws, .dB, .ws, .dd, .ws, .dH, .lit ':', .dM, .lit ':', .dS,
   .lit '.', .df, .ws, .dY]

/-- `"%b %d %H:%M:%S.%f %Y"`. -/
def fmtHeader4 : List Dir :=
  [.dB, .ws, .dd, .ws, .dH, .lit ':', .dM, .lit ':', .dS, .lit '.', .df,
   .ws, .dY]

/-- The header-date format list, in source order. -/
def headerFmts : List (List Dir) :=
  [fmtHeader1, fmtHeader2, fmtHeader3, fmtHeader4]

/-- `"%Y-%m-%d %H:%M:%S.%f"`. -/
def fmtRow1 : List Dir :=
  [.dY, .lit '-', .dm, .lit '-', .dd, .ws, .dH, .lit ':', .dM, .lit ':',
   .dS, .lit '.', .df]

/-- `"%H:%M:%S.%f"`. -/
def fmtRow2 : List Dir := [.dH, .lit ':', .dM, .lit ':', .dS, .lit '.', .df]

/-- `"%Y-%m-%d %H:%M:%S"`. -/
def fmtRow3 : List Dir :=
  [.dY, .lit '-', .dm, .lit '-', .dd, .ws, .dH, .lit ':', .dM, .lit ':', .dS]

/-- `"%H:%M:%S"`. -/
def fmtRow4 : List Dir := [.dH, .lit ':', .dM, .lit ':', .dS]

/-- `"%H-%M-%S-%f"`. -/
def fmtRow5 : List Dir := [.dH, .lit '-', .dM, .lit '-', .dS, .lit '-', .df]

/-- The row-time format list, in source order. -/
def rowFmts : List (List Dir) :=
  [fmtRow1, fmtRow2, fmtRow3, fmtRow4, fmtRow5]

/-- First row-time format that parses the (already stripped) token. -/
def rowFirstMatch (s : String) : Option DT := tryFmts rowFmts s

/-! ## The reader's regex helpers -/

/-- `re.sub(r"\s+", " ", s)`: collapse every whitespace run to a single
space.  The flag records whether the previous character was whitespace. -/
def collapseGo : Bool → List Char → List Char
  | _, [] => []
  | prevWs, c :: cs =>
    if isPySpace c then
      if prevWs then collapseGo true cs else ' ' :: collapseGo true cs
    else c :: collapseGo false cs

/-- `re.sub(r"\s+", " ", s)`. -/
def collapseWs (s : String) : String := ⟨collapseGo false s.data⟩

/-- Is the first character a digit? -/
def headIsDigit : List Char → Bool
  | c :: _ => c.isDigit
  | [] => false

/-- `re.sub(r"\b[A-Z]{2,5}\b(?=\s+\d{4}$)", "", s)`: remove a 2–5 letter
all-uppercase word followed by whitespace and a four-digit year at the
end of the string.  The end anchor means at most one position can match,
so the substitution removes at most one token; working from the reversed
string: exactly four digits at the end, preceded by whitespace, preceded
by a maximal uppercase run of length 2–5 whose left neighbour is a word
boundary. -/
def tzStripRev : List Char → List Char
  | y1 :: y2 :: y3 :: y4 :: rest =>
    if y1.isDigit ∧ y2.isDigit ∧ y3.isDigit ∧ y4.isDigit ∧
       ¬ headIsDigit rest then
      let wsRun := rest.takeWhile isPySpace
      let afterWs := rest.dropWhile isPySpace
      let tzRun := afterWs.takeWhile (fun c => 'A' ≤ c ∧ c ≤ 'Z')
      let beforeTz := afterWs.dropWhile (fun c => 'A' ≤ c ∧ c ≤ 'Z')
      let boundary : Bool :=
        match beforeTz with
        | [] => true
        | c :: _ => ¬ isWordChar c
      if wsRun ≠ [] ∧ 2 ≤ tzRun.length ∧ tzRun.length ≤ 5 ∧ boundary then
        y1 :: y2 :: y3 :: y4 :: (wsRun ++ beforeTz)
      else y1 :: y2 :: y3 :: y4 :: rest
    else y1 :: y2 :: y3 :: y4 :: rest
  | l => l

/-- `re.sub(r"\b[A-Z]{2,5}\b(?=\s+\d{4}$)", "", s)`. -/
def stripTzAbbrev (s : String) : String :=
  ⟨(tzStripRev s.data.reverse).reverse⟩

/-- Word boundary after a digit: next char non-word, or end of input. -/
def bAfter : List Char → Bool
  | [] => true
  | c :: _ => ¬ isWordChar c

/-- Optional `:\d\d` group of the `GMT` pattern. -/
def colonDD : List Char → Option (List Char)
  | ':' :: a :: b :: rest =>
    if a.isDigit ∧ b.isDigit then some rest else none
  | _ => none

/-- After the digits of `GMT[+-]\d{1,2}`: greedy optional `(?::\d{2})?`
then `\b`, with regex backtracking (colon group relinquished when the
boundary after it fails). -/
def gmtAfterDigits (rest : List Char) : Option (List Char) :=
  match colonDD rest with
  | some r2 => if bAfter r2 then some r2 else if bAfter rest then some rest else none
  | none => if bAfter rest then some rest else none

/-- After the sign of the `GMT` pattern: `\d{1,2}` greedy (two digits
preferred, one on backtrack) followed by the optional colon group and
boundary. -/
def gmtAfterSign : List Char → Option (List Char)
  | c1 :: c2 :: rest =>
    if c1.isDigit then
      if c2.isDigit then
        match gmtAfterDigits rest with
        | some r => some r
        | none => gmtAfterDigits (c2 :: rest)
      else gmtAfterDigits (c2 :: rest)
    else none
  | [c1] => if c1.isDigit then gmtAfterDigits [] else none
  | [] => none

/-- Scan for `re.sub(r"\bGMT[+-]\d{1,2}(?::\d{2})?\b", "", s)`: walk the
string left to right tracking whether the previous (original) character
is a word character, removing every match.  The fuel argument only
drives termination — every step consumes at least one character, so
`stripGMT` never exhausts it. -/
def gmtScan : ℕ → Bool → List Char → List Char
  | 0, _, l => l
  | _ + 1, _, [] => []
  | fuel + 1, prevW, c :: cs =>
    if c = 'G' ∧ prevW = false then
      match cs with
      | 'M' :: 'T' :: s :: rest =>
        if s = '+' ∨ s = '-' then
          match gmtAfterSign rest with
          | some r => gmtScan fuel true r
          | none => c :: gmtScan fuel true cs
        else c :: gmtScan fuel true cs
      | _ => c :: gmtScan fuel true cs
    else c :: gmtScan fuel (isWordChar c) cs

/-- `re.sub(r"\bGMT[+-]\d{1,2}(?::\d{2})?\b", "", s)`. -/
def stripGMT (s : String) : String :=
  ⟨gmtScan (s.data.length + 1) false s.data⟩

/-- `re.search(r"begin\s+spectral\s+data", ln, flags=re.I)` tried at one
position. -/
def markerAt (cs : List Char) : Bool :=
  (do
    let r1 ← matchCIWord "begin".data cs
    let r2 ← match r1 with
             | c :: rest =>
               if isPySpace c then some (rest.dropWhile isPySpace) else none
             | [] => none
    let r3 ← matchCIWord "spectral".data r2
    let r4 ← match r3 with
             | c :: rest =>
               if isPySpace c then some (rest.dropWhile isPySpace) else none
             | [] => none
    let _ ← matchCIWord "data".data r4
    pure ()).isSome

/-- `re.search` over the whole line: does any position match? -/
def anySuffix (p : List Char → Bool) : List Char → Bool
  | [] => p []
  | c :: cs => p (c :: cs) || anySuffix p cs

/-- Line contains the (case-insensitive, whitespace-flexible)
`begin spectral data` marker. -/
def markerIn (ln : String) : Bool := anySuffix markerAt ln.data

/-- `re.match(r"^\s*\d", ln)`: the line starts with a digit after
optional whitespace. -/
def digitLeading (ln : String) : Bool :=
  match ln.data.dropWhile isPySpace with
  | c :: _ => c.isDigit
  | [] => false

/-! ## The reader's helper methods -/

/-- The error taxonomy of `read`: each constructor is one exception the
Python code can raise (`ValueError`s with their distinguishing message,
plus the `AttributeError`/`IndexError` crashes reachable in the code). -/
inductive PyErr
  | headerDateParse (raw : String)
  | attrNone
  | indexError
  | noSpectralData
  | emptyWavelength
  | floatParse (tok : String)
  | stackError
deriving DecidableEq, Repr

/-- `float(tok.replace(",", "."))` as used at every numeric site of the
reader, with its possible `ValueError`. -/
def floatTok (tok : String) : Except PyErr PyFloat :=
  match pyFloat (commaFix tok) with
  | some v => .ok v
  | none => .error (.floatParse tok)

/-- Left-to-right conversion of a token list, first `ValueError` wins
(the list-comprehension order of the source). -/
def floatRowGo : List String → Except PyErr (List PyFloat)
  | [] => .ok []
  | t :: ts =>
    match floatTok t with
    | .error e => .error e
    | .ok v =>
      match floatRowGo ts with
      | .error e => .error e
      | .ok vs => .ok (v :: vs)

/-- `_parse_float_row`: split the stripped line on whitespace runs, drop
empty tokens, convert each with comma-decimal normalisation. -/
def parse_float_row (s : String) : Except PyErr (List PyFloat) :=
  floatRowGo (pySplitWs (pyStrip s))

/-- `vals.split()` + float conversion for one data row's intensity part. -/
def parseVals (s : String) : Except PyErr (List PyFloat) :=
  floatRowGo (pySplitWs s)

/-- `_parse_header_date`: strip, drop a `date:` prefix, collapse
whitespace, strip a trailing timezone abbreviation and a `GMT±H[:MM]`
token, then try the four header formats; `none` models the final
`ValueError("Could not parse header date: …")`. -/
def parseHeaderDate (dateStr : String) : Option DT :=
  let s := pyStrip dateStr
  let s :=
    if (matchCIWord "date:".data s.data).isSome then
      match breakAtFirst ':' s.data with
      | some (_, after) => pyStrip ⟨after⟩
      | none => s
    else s
  let s := collapseWs s
  let s := stripTzAbbrev s
  let s := pyStrip (stripGMT s)
  tryFmts headerFmts s

/-- `_parse_filename_time`: leftmost `re.search` of
`__(\d{2})-(\d{2})-(\d{2})-(\d{3})` over the path string, returning the
millisecond group. -/
def filenameMsAt : List Char → Option ℕ
  | '_' :: '_' :: h1 :: h2 :: '-' :: m1 :: m2 :: '-' :: s1 :: s2 :: '-' ::
      f1 :: f2 :: f3 :: _ =>
    if h1.isDigit ∧ h2.isDigit ∧ m1.isDigit ∧ m2.isDigit ∧
       s1.isDigit ∧ s2.isDigit ∧ f1.isDigit ∧ f2.isDigit ∧ f3.isDigit then
      some (100 * digi f1 + 10 * digi f2 + digi f3)
    else none
  | _ => none

/-- Leftmost-match scan for `_parse_filename_time`. -/
def filenameMsScan : List Char → Option ℕ
  | [] => none
  | c :: cs =>
    match filenameMsAt (c :: cs) with
    | some ms => some ms
    | none => filenameMsScan cs

/-- `_parse_filename_time(path)`. -/
def parseFilenameTime (path : String) : Option ℕ := filenameMsScan path.data

/-- `_split_stamp`: prefer the first tab; otherwise split the stripped
line at every single whitespace character and keep pieces 0 and 1 only
(piece 1 defaults to the empty string). -/
def split_stamp (line : String) : String × String :=
  match breakAtFirst '\t' line.data with
  | some (a, b) => (pyStrip ⟨a⟩, pyStrip ⟨b⟩)
  | none =>
    let parts := pySplitSingle (pyStrip line)
    let stamp := parts.headD ""
    let rest := (parts.drop 1).headD ""
    (pyStrip stamp, pyStrip rest)

/-- Seconds since midnight of a parsed datetime:
`dt.hour * 3600 + dt.minute * 60 + dt.second + dt.microsecond / 1e6`. -/
def secsSinceMidnight (dt : DT) : ℚ :=
  dt.hour * 3600 + dt.minute * 60 + dt.second + (dt.microsecond : ℚ) / 1000000

/-- The bare-number fallback of `_parse_row_time`:
`float(stamp.replace(",", "."))`, degrading to `nan` when that raises. -/
def rowFallback (s : String) : PyFloat :=
  match pyFloat (commaFix s) with
  | some v => v
  | none => .nan

/-- `_parse_row_time`: strip, try the five row formats in order (the
successful parse yields seconds since midnight — the date fields are not
used), then the bare float fallback, then the `nan` sentinel. -/
def parseRowTime (stamp : String) : PyFloat :=
  let s := pyStrip stamp
  match rowFirstMatch s with
  | some dt => .fin (secsSinceMidnight dt)
  | none => rowFallback s

/-! ## `read` -/

/-- Days from 1970-01-01 (civil-from-days algorithm, as used by the
C library underneath `datetime.timestamp`); fields are a valid date. -/
def daysFromCivil (y m d : ℤ) : ℤ :=
  let y' := if m ≤ 2 then y - 1 else y
  let era := (if 0 ≤ y' then y' else y' - 399) / 400
  let yoe := y' - era * 400
  let mp := (m + 9) % 12
  let doy := (153 * mp + 2) / 5 + d - 1
  let doe := yoe * 365 + yoe / 4 - yoe / 100 + doy
  era * 146097 + doe - 719468

/-- The whole-second part of the epoch value of a datetime. -/
def epochIntSec (dt : DT) : ℤ :=
  daysFromCivil dt.year dt.month dt.day * 86400 +
    dt.hour * 3600 + dt.minute * 60 + dt.second

/-- `dt.timestamp()` on the naive header datetime, idealised to UTC (the
local-zone offset CPython would add is a whole number of seconds and no
claim below depends on it). -/
def timestampOf (dt : DT) : ℚ :=
  (epochIntSec dt : ℚ) + (dt.microsecond : ℚ) / 1000000

/-- The object returned by `read` — the fields of the
`OpticalSpectrumSeries`/`Field`/`TimeSeries`/`DataSeries` assembly that
the reader itself determines. -/
structure Result where
  name : String
  technique : String
  tstamp : ℚ
  wavelengths : List PyFloat
  relTimes : List PyFloat
  intensity : List (List PyFloat)
  continuous : Bool
deriving DecidableEq, Repr

/-- Python truthiness of `name or path_to_file.stem`: the only falsy
string is the empty one; an omitted `name` is `None`. -/
def resolveName : Option String → String → String
  | none, d => d
  | some s, d => if s = "" then d else s

/-- Split a character list at every occurrence of a separator
character, keeping empty pieces. -/
def splitCharGo (sep : Char) : List Char → List Char → List (List Char)
  | [], acc => [acc.reverse]
  | c :: cs, acc =>
    if c = sep then acc.reverse :: splitCharGo sep cs []
    else splitCharGo sep cs (c :: acc)

/-- `Path(p).stem`: last path component without its suffix (the suffix
starts at the last dot, provided it is neither the first nor the last
character of the component). -/
def pathStem (p : String) : String :=
  let comps := (splitCharGo '/' p.data []).map (fun l => (⟨l⟩ : String))
  let comps := comps.filter (fun c => c ≠ "")
  let base := comps.getLastD ""
  match breakAtFirst '.' base.data.reverse with
  | some (after, before) =>
    if after ≠ [] ∧ before ≠ [] then ⟨before.reverse⟩ else base
  | none => base

/-- A line starting (case-insensitively) with `date:`
(`ln.lower().startswith("date:")`). -/
def isDateLine (ln : String) : Bool := (matchCIWord "date:".data ln.data).isSome

/-- `ln.split(":", 1)[1].strip()` (a colon exists in every date line). -/
def extractDateStr (ln : String) : String :=
  match breakAtFirst ':' ln.data with
  | some (_, after) => pyStrip ⟨after⟩
  | none => ""

/-- Lines 44–50 of the source: scan the first 40 lines for a `date:`
line; parse the first one found (a failed parse raises there), no line
at all leaves `dt_header = None`. -/
def headerStep (lines : List String) : Except PyErr (Option DT) :=
  match (lines.take 40).find? isDateLine with
  | none => .ok none
  | some ln =>
    match parseHeaderDate (extractDateStr ln) with
    | some dt => .ok (some dt)
    | none => .error (.headerDateParse (extractDateStr ln))

/-- Lines 52–55: overwrite the microsecond field with the filename
milliseconds when both are available. -/
def refineStep (path : String) (dtOpt : Option DT) : Option DT :=
  match parseFilenameTime path, dtOpt with
  | some ms, some dt => some {dt with microsecond := ms * 1000}
  | _, o => o

/-- Lines 59–67: find the marker line whose successor starts with a
digit.  A marker on the last line indexes past the end
(`lines[i + 1]` — an `IndexError`); a marker whose successor is not
digit-leading is skipped.  Returns the successor (wavelength) line and
the remaining lines. -/
def findData : List String → Except PyErr (String × List String)
  | [] => .error .noSpectralData
  | [ln] => if markerIn ln then .error .indexError else .error .noSpectralData
  | ln :: next :: rest =>
    if markerIn ln then
      if digitLeading next then .ok (next, rest)
      else findData (next :: rest)
    else findData (next :: rest)

/-- Lines 80–88: one data row — split off the timestamp, parse the row
time (never raising), convert the intensity tokens. -/
def processRow (line : String) : Except PyErr (PyFloat × List PyFloat) :=
  let p := split_stamp line
  match parseVals p.2 with
  | .error e => .error e
  | .ok v => .ok (parseRowTime p.1, v)

/-- All data rows, in order, first exception wins. -/
def processRows : List String → Except PyErr (List PyFloat × List (List PyFloat))
  | [] => .ok ([], [])
  | l :: rest =>
    match processRow l with
    | .error e => .error e
    | .ok tv =>
      match processRows rest with
      | .error e => .error e
      | .ok p => .ok (tv.1 :: p.1, tv.2 :: p.2)

/-- `np.stack(spectra)` succeeds iff the list is non-empty and
rectangular. -/
def stackOk : List (List PyFloat) → Bool
  | [] => false
  | v :: rest => rest.all (fun w => w.length = v.length)

/-- The successful assembly of lines 90–114: normalised relative times
(`rel_times - rel_times[0]`) and the output object.  (`rels` is
non-empty whenever `stackOk` holds, so the `headD` default is never
used.) -/
def mkRes (nm : String) (ts : ℚ) (wl : List PyFloat) (rels : List PyFloat)
    (sp : List (List PyFloat)) : Result :=
  let r0 := rels.headD PyFloat.nan
  { name := nm
    technique := "Optical"
    tstamp := ts
    wavelengths := wl
    relTimes := rels.map (fun x => psub x r0)
    intensity := sp
    continuous := true }

/-- Lines 59–114 of `read`, after the absolute timestamp is computed. -/
def bodyStep (lines : List String) (nm : String) (ts : ℚ) :
    Except PyErr Result :=
  match findData lines with
  | .error e => .error e
  | .ok wr =>
    match parse_float_row wr.1 with
    | .error e => .error e
    | .ok wavelengths =>
      if wavelengths.length = 0 then .error .emptyWavelength
      else
        match processRows (wr.2.filter (fun ln => pyStrip ln ≠ "")) with
        | .error e => .error e
        | .ok rs =>
          if stackOk rs.2 then .ok (mkRes nm ts wavelengths rs.1 rs.2)
          else .error .stackError

/-- `OceanViewTimeSeriesReader.read`, over the path string and the list
of lines of the file.  (The `cls` argument only selects the output
class constructed at line 106 and carries no data studied here, so it is
not modelled.)  Step order follows the source: resolve the name, scan
the header (a failed parse of the first `date:` line raises there),
refine with filename milliseconds, take `dt_header.timestamp()` — an
`AttributeError` on `None` when no `date:` line matched — then locate
and parse the data section. -/
def read (path : String) (lines : List String) (name : Option String) :
    Except PyErr Result :=
  let nm := resolveName name (pathStem path)
  match headerStep lines with
  | .error e => .error e
  | .ok dtOpt =>
    match refineStep path dtOpt with
    | none => .error .attrNone
    | some dt => bodyStep lines nm (timestampOf dt)

/-! ## Accessors used to state the claims -/

/-- Did `read` return normally? -/
def isOkB : Except PyErr Result → Bool
  | .ok _ => true
  | .error _ => false

/-- Is the outcome the header-date `ParseError`? -/
def isHeaderDateErrB : Except PyErr Result → Bool
  | .error (.headerDateParse _) => true
  | _ => false

/-- The returned object's name, when `read` succeeded. -/
def nameOf : Except PyErr Result → Option String
  | .ok r => some r.name
  | .error _ => none

/-- The returned object's absolute timestamp, when `read` succeeded. -/
def tstampOf : Except PyErr Result → Option ℚ
  | .ok r => some r.tstamp
  | .error _ => none

/-- First element of the returned normalised relative-time sequence. -/
def relHead : Except PyErr Result → Option PyFloat
  | .ok r => r.relTimes.head?
  | .error _ => none

/-! ## Concrete inputs and predicates used to state the claims -/

/-- A file with no `date:` line (data section otherwise intact). -/
def c1NoDateLines : List String :=
  ["hello", "Begin Spectral Data:", "400.0", "0.0\t1.0"]

/-- A file whose `date:` line matches no accepted format. -/
def c1BadDateLines : List String :=
  ["Date: nonsense", "Begin Spectral Data:", "400.0", "0.0\t1.0"]

/-- A file whose first data row has an unparseable timestamp. -/
def c5NanLines : List String :=
  ["Date: Jan 02 03:04:05 2023", "Begin Spectral Data:", "400.0 400.5",
   "abc\t1.0 2.0", "00:00:01\t1.1 2.1"]

/-- A well-formed file. -/
def c5GoodLines : List String :=
  ["Date: Jan 02 03:04:05 2023", "Begin Spectral Data:", "400.0 400.5",
   "00:00:00.000\t1.0 2.0", "00:00:01.500\t1.1 2.1"]

/-- A file whose first data row's timestamp token parses (through the
bare float fallback) to positive infinity. -/
def c5InfLines : List String :=
  ["Date: Jan 02 03:04:05 2023", "Begin Spectral Data:", "400.0 400.5",
   "inf\t1.0 2.0", "00:00:01\t1.1 2.1"]

/-- The raw (pre-normalisation) time value of a file's first data row,
recomputed by the reader's own steps (lines 59–85 of the source): locate
the data section, drop blank lines, split the first remaining row and
parse its timestamp token.  `none` when there is no data section or no
data row. -/
def firstRawRowTime (lines : List String) : Option PyFloat :=
  match findData lines with
  | .error _ => none
  | .ok wr =>
    match (wr.2.filter (fun ln => pyStrip ln ≠ "")).head? with
    | some ln => some (parseRowTime (split_stamp ln).1)
    | none => none

/-- A file whose marker line is its last line. -/
def c6MarkerLastLines : List String :=
  ["Date: Jan 02 03:04:05 2023", "begin spectral data"]

/-- Case-sensitive prefix match. -/
def matchWord : List Char → List Char → Option (List Char)
  | [], cs => some cs
  | _ :: _, [] => none
  | p :: ps, c :: cs => if c = p then matchWord ps cs else none

/-- Case-sensitive substring occurrence (used to state that a path
contains a given pattern). -/
def containsSub (pat s : String) : Bool :=
  anySuffix (fun cs => (matchWord pat.data cs).isSome) s.data

/-- Lines of a well-formed file used for the C8 inputs. -/
def c8Lines : List String :=
  ["Date: Jan 02 03:04:05 2023", "Begin Spectral Data:", "400.0 400.5",
   "00:00:00.000\t1.0 2.0"]

/-- The refined header datetime of the C8 counterexample. -/
def c8Dt : DT :=
  { year := 2023, month := 1, day := 2, hour := 3, minute := 4,
    second := 5, microsecond := 111000 }

/-- Lines of a well-formed file used for the C10 witness. -/
def c10Lines : List String :=
  ["Date: Jan 02 03:04:05 2023", "Begin Spectral Data:", "400.0 400.5",
   "00:00:00.000\t1.0 2.0", "00:00:01.500\t1.1 2.1"]

/-! ## Supporting lemmas -/

/-- A successful `bodyStep` always returns an `mkRes` assembly with the
name and timestamp it was given. -/
theorem bodyStep_ok {lines : List String} {nm : String} {ts : ℚ} {r : Result}
    (h : bodyStep lines nm ts = .ok r) :
    ∃ wl rels sp, r = mkRes nm ts wl rels sp := by
  unfold bodyStep at h
  split at h
  · simp at h
  · split at h
    · simp at h
    · split at h
      · simp at h
      · split at h
        · simp at h
        · split at h
          · injection h with h
            exact ⟨_, _, _, h.symm⟩
          · simp at h

/-- `psub x x` is finite zero or `nan`. -/
theorem psub_self (x : PyFloat) : psub x x = .nan ∨ psub x x = .fin 0 := by
  cases x <;> simp [psub]

/-- A successfully processed row's time value is the parse of its
timestamp token. -/
theorem processRow_ok_fst {l : String} {tv : PyFloat × List PyFloat}
    (h : processRow l = .ok tv) : tv.1 = parseRowTime (split_stamp l).1 := by
  simp only [processRow] at h
  split at h
  · exact absurd h (by simp)
  · injection h with h
    rw [← h]

/-- The head of the row-time list produced by `processRows` is the parse
of the first line's timestamp token. -/
theorem processRows_head {ls : List String}
    {rs : List PyFloat × List (List PyFloat)}
    (h : processRows ls = .ok rs) :
    rs.1.head? = ls.head?.map (fun ln => parseRowTime (split_stamp ln).1) := by
  cases ls with
  | nil =>
    simp only [processRows] at h
    injection h with h
    rw [← h]
    rfl
  | cons l rest =>
    cases hpr : processRow l with
    | error e =>
      simp only [processRows, hpr] at h
      exact absurd h (by simp)
    | ok tv =>
      cases hps : processRows rest with
      | error e =>
        simp only [processRows, hpr, hps] at h
        exact absurd h (by simp)
      | ok p =>
        simp only [processRows, hpr, hps] at h
        injection h with h
        rw [← h]
        simp only [List.head?_cons, Option.map_some', Option.some.injEq]
        exact processRow_ok_fst hpr

/-- A successful `bodyStep` normalises a raw row-time list whose head is
`firstRawRowTime` of the file. -/
theorem bodyStep_relHead {lines : List String} {nm : String} {ts : ℚ}
    {r : Result} (h : bodyStep lines nm ts = .ok r) :
    ∃ rels : List PyFloat,
      r.relTimes = rels.map (fun x => psub x (rels.headD .nan)) ∧
      rels.head? = firstRawRowTime lines := by
  cases hfd : findData lines with
  | error e =>
    simp only [bodyStep, hfd] at h
    exact absurd h (by simp)
  | ok wr =>
    cases hwl : parse_float_row wr.1 with
    | error e =>
      simp only [bodyStep, hfd, hwl] at h
      exact absurd h (by simp)
    | ok wl =>
      simp only [bodyStep, hfd, hwl] at h
      split at h
      · exact absurd h (by simp)
      · cases hpr : processRows (wr.2.filter (fun ln => pyStrip ln ≠ "")) with
        | error e =>
          simp only [hpr] at h
          exact absurd h (by simp)
        | ok rs =>
          simp only [hpr] at h
          split at h
          · injection h with h
            refine ⟨rs.1, ?_, ?_⟩
            · rw [← h]
              rfl
            · rw [processRows_head hpr]
              simp only [firstRawRowTime, hfd]
              cases (wr.2.filter (fun ln => pyStrip ln ≠ "")).head? <;> rfl
          · exact absurd h (by simp)

/-! ## Claim C1 — header-date error handling -/

/-- Claim C1, counterexample: a file with no `date:` line among the
first 40 lines yields no header date, yet `read` fails with the
`None`-attribute error of line 57 (`dt_header.timestamp()`), not with
the header-date `ParseError` the claim requires. -/
theorem claim_c1_cex :
    (c1NoDateLines.take 40).find? isDateLine = none ∧
    read "p.txt" c1NoDateLines none = .error .attrNone ∧
    isHeaderDateErrB (read "p.txt" c1NoDateLines none) = false :=
  ⟨rfl, rfl, rfl⟩

/-- Claim C1 (amended): if the first `date:` line among the first 40
lines has a date string matching no accepted format, `read` fails with
the header-date `ParseError` carrying that raw string; if no line starts
(case-insensitively) with `date:`, `read` instead fails with the
`None`-attribute error. -/
theorem claim_c1 (path : String) (lines : List String) (nm : Option String) :
    (∀ ln, (lines.take 40).find? isDateLine = some ln →
      parseHeaderDate (extractDateStr ln) = none →
      read path lines nm = .error (.headerDateParse (extractDateStr ln))) ∧
    ((lines.take 40).find? isDateLine = none →
      read path lines nm = .error .attrNone) := by
  constructor
  · intro ln hfind hparse
    simp [read, headerStep, hfind, hparse]
  · intro hfind
    cases hms : parseFilenameTime path <;>
      simp [read, headerStep, hfind, refineStep, hms]

/-- Witness for C1 at concrete files: an unparseable `date:` line and a
missing one. -/
theorem claim_c1_witness :
    read "p.txt" c1BadDateLines none = .error (.headerDateParse "nonsense") ∧
    read "p.txt" c1NoDateLines none = .error .attrNone := by
  constructor
  · exact (claim_c1 "p.txt" c1BadDateLines none).1 "Date: nonsense" rfl rfl
  · exact (claim_c1 "p.txt" c1NoDateLines none).2 rfl

/-! ## Claim C2 — whitespace split of a data row -/

/-- Claim C2, code evaluation: `_split_stamp` on a tab-free row splits
with `re.split(r"[\s\t]", …)` — a single-character class — and keeps
only piece 1 as the remainder, so of `"0.5 1.0 2.0 3.0"` it returns
remainder `"1.0"`, not everything after the first whitespace run
(`"1.0 2.0 3.0"`): the rest of the row's intensity vector is dropped. -/
theorem claim_c2 :
    split_stamp "0.5 1.0 2.0 3.0" = ("0.5", "1.0") ∧
    ("1.0" : String) ≠ "1.0 2.0 3.0" :=
  ⟨rfl, by decide⟩

/-! ## Claim C3 — header-date timezone tolerance -/

/-- Claim C3, counterexample: the timezone abbreviation is only stripped
when it stands *before* the four-digit year
(`\b[A-Z]{2,5}\b(?=\s+\d{4}$)`), so
`"Mon Jan 02 03:04:05 2023 EST"` — with the abbreviation after the year
— matches nothing and header-date parsing fails rather than succeeding. -/
theorem claim_c3_cex :
    parseHeaderDate "Mon Jan 02 03:04:05 2023 EST" = none := rfl

/-- Claim C3 (amended): a trailing timezone abbreviation placed before
the year, as in `"Mon Jan 02 03:04:05 EST 2023"`, is stripped: the
string parses to the same naive timestamp as
`"Mon Jan 02 03:04:05 2023"`; and header-date parsing of any fixed
string is deterministic. -/
theorem claim_c3 :
    parseHeaderDate "Mon Jan 02 03:04:05 EST 2023" =
      some { year := 2023, month := 1, day := 2,
             hour := 3, minute := 4, second := 5 } ∧
    parseHeaderDate "Mon Jan 02 03:04:05 2023" =
      some { year := 2023, month := 1, day := 2,
             hour := 3, minute := 4, second := 5 } ∧
    ∀ s : String, parseHeaderDate s = parseHeaderDate s :=
  ⟨rfl, rfl, fun _ => rfl⟩

/-! ## Claim C4 — row times with a date part -/

/-- Claim C4, counterexample: `_parse_row_time` computes
`dt.hour * 3600 + dt.minute * 60 + dt.second + dt.microsecond / 1e6`
even when the matched format contains a date, so
`"1970-01-02 00:00:01"` yields `1.0` — seconds since *midnight* — while
seconds since the epoch of that date-time is `86401`. -/
theorem claim_c4_cex :
    parseRowTime "1970-01-02 00:00:01" = .fin 1 ∧
    timestampOf { year := 1970, month := 1, day := 2, second := 1 } = 86401 ∧
    (1 : ℚ) ≠ 86401 := by
  refine ⟨?_, ?_, by norm_num⟩
  · rw [show parseRowTime "1970-01-02 00:00:01" =
        .fin (secsSinceMidnight { year := 1970, month := 1, day := 2, second := 1 })
      from rfl]
    norm_num [secsSinceMidnight]
  · have he : epochIntSec { year := 1970, month := 1, day := 2, second := 1 } = 86401 := by
      decide
    simp [timestampOf, he]

/-- Claim C4 (amended): whichever of the five row-time formats matches
first — including the two carrying a date — the parsed relative-time
value equals seconds since midnight of the parsed date-time; the date
fields are discarded. -/
theorem claim_c4 (stamp : String) (dt : DT)
    (h : rowFirstMatch (pyStrip stamp) = some dt) :
    parseRowTime stamp = .fin (secsSinceMidnight dt) := by
  simp [parseRowTime, h]

/-- Witness for C4 at a concrete date-carrying token. -/
theorem claim_c4_witness :
    rowFirstMatch (pyStrip "1970-01-02 00:00:01") =
      some { year := 1970, month := 1, day := 2, second := 1 } ∧
    parseRowTime "1970-01-02 00:00:01" =
      .fin (secsSinceMidnight { year := 1970, month := 1, day := 2, second := 1 }) :=
  ⟨rfl, claim_c4 _ _ rfl⟩

/-! ## Claim C5 — first normalised relative time -/

/-- Claim C5, counterexample: when the first row's timestamp degrades to
the `nan` sentinel, `rel_times - rel_times[0]` is `nan - nan = nan`, so
`read` returns successfully with a first normalised relative time that
is `nan`, not exactly zero. -/
theorem claim_c5_cex :
    isOkB (read "p.txt" c5NanLines none) = true ∧
    relHead (read "p.txt" c5NanLines none) = some PyFloat.nan ∧
    some PyFloat.nan ≠ some (PyFloat.fin 0) :=
  ⟨rfl, rfl, by decide⟩

/-- Claim C5 (amended): on every successful `read`, the first element of
the normalised relative-time sequence is exactly zero whenever the first
row's raw time value is finite; when that raw value is the `nan`
sentinel or an infinity, the first element is `nan` instead (so it is
always one of the two). -/
theorem claim_c5 (path : String) (lines : List String) (nm : Option String)
    (t : PyFloat) (h : relHead (read path lines nm) = some t) :
    (∀ q, firstRawRowTime lines = some (PyFloat.fin q) → t = PyFloat.fin 0) ∧
    ((firstRawRowTime lines = some PyFloat.nan ∨
      firstRawRowTime lines = some PyFloat.pinf ∨
      firstRawRowTime lines = some PyFloat.ninf) → t = PyFloat.nan) ∧
    (t = PyFloat.nan ∨ t = PyFloat.fin 0) := by
  simp only [read] at h
  cases hh : headerStep lines with
  | error e => simp only [hh] at h; simp [relHead] at h
  | ok dtOpt =>
    simp only [hh] at h
    cases hr : refineStep path dtOpt with
    | none => simp only [hr] at h; simp [relHead] at h
    | some dt =>
      simp only [hr] at h
      cases hb : bodyStep lines (resolveName nm (pathStem path)) (timestampOf dt) with
      | error e => simp only [hb] at h; simp [relHead] at h
      | ok r =>
        simp only [hb] at h
        obtain ⟨rels, hmap, hhead⟩ := bodyStep_relHead hb
        simp only [relHead, hmap] at h
        cases rels with
        | nil => simp at h
        | cons a l =>
          simp only [List.headD_cons, List.map_cons, List.head?_cons,
            Option.some.injEq] at h
          simp only [List.head?_cons] at hhead
          refine ⟨?_, ?_, ?_⟩
          · intro q hq
            rw [hq] at hhead
            injection hhead with hhead
            rw [← h, hhead]
            simp [psub]
          · intro hd
            rcases hd with h' | h' | h' <;>
              (rw [h'] at hhead; injection hhead with hhead;
               rw [← h, hhead]; rfl)
          · rw [← h]
            exact psub_self a

/-- Witness for C5 at two concrete files: a well-formed one, whose first
raw row time is finite and whose first normalised time the theorem then
forces to exactly zero, and one whose first timestamp token is `"inf"`,
whose first normalised time the theorem forces to `nan`. -/
theorem claim_c5_witness :
    (∃ q t, firstRawRowTime c5GoodLines = some (PyFloat.fin q) ∧
      relHead (read "p.txt" c5GoodLines none) = some t ∧ t = PyFloat.fin 0) ∧
    (∃ t, firstRawRowTime c5InfLines = some PyFloat.pinf ∧
      relHead (read "p.txt" c5InfLines none) = some t ∧ t = PyFloat.nan) :=
  ⟨⟨_, _, rfl, rfl,
    (claim_c5 "p.txt" c5GoodLines none _ rfl).1 _ rfl⟩,
   ⟨_, rfl, rfl,
    (claim_c5 "p.txt" c5InfLines none _ rfl).2.1 (Or.inr (Or.inl rfl))⟩⟩

/-! ## Claim C6 — data-section location errors -/

/-- Claim C6, code evaluation: with the marker on the last line the
source evaluates `lines[i + 1]` past the end and `read` fails with an
`IndexError`, not with the data-format `ValueError`
(`"No spectral data section found!"`) the claim requires for every file
lacking a marker-plus-digit-line pair. -/
theorem claim_c6 :
    read "p.txt" c6MarkerLastLines none = .error .indexError ∧
    PyErr.indexError ≠ PyErr.noSpectralData :=
  ⟨rfl, by decide⟩

/-! ## Claim C7 — row-time fallback to `nan` -/

/-- Claim C7: a data row whose timestamp token matches none of the five
row-time formats and fails the bare float parse is retained — its
processing succeeds whenever the intensity part converts — with the
`nan` sentinel as its time value, and no exception is raised for it. -/
theorem claim_c7 (line st rs : String) (v : List PyFloat)
    (hsplit : split_stamp line = (st, rs))
    (hfmt : rowFirstMatch (pyStrip st) = none)
    (hfloat : pyFloat (commaFix (pyStrip st)) = none)
    (hvals : parseVals rs = .ok v) :
    processRow line = .ok (PyFloat.nan, v) := by
  simp [processRow, hsplit, hvals, parseRowTime, hfmt, rowFallback, hfloat]

/-- Witness for C7 at a concrete malformed timestamp. -/
theorem claim_c7_witness :
    ∃ v, parseVals "1.0 2.0" = .ok v ∧
      processRow "abc\t1.0 2.0" = .ok (PyFloat.nan, v) :=
  ⟨_, rfl, claim_c7 "abc\t1.0 2.0" "abc" "1.0 2.0" _ rfl rfl rfl rfl⟩

/-! ## Claim C8 — filename milliseconds -/

/-- Claim C8, counterexample: `re.search` takes the *leftmost* match of
`__(\d{2})-(\d{2})-(\d{2})-(\d{3})`, so a path that contains
`__13-42-52-946` but also an earlier occurrence of the pattern
(`"a__11-11-11-111__13-42-52-946.txt"`) gets sub-second 111 ms, not
946 ms, even though the header date parses and `read` succeeds. -/
theorem claim_c8_cex :
    containsSub "__13-42-52-946" "a__11-11-11-111__13-42-52-946.txt" = true ∧
    tstampOf (read "a__11-11-11-111__13-42-52-946.txt" c8Lines none) =
      some (timestampOf c8Dt) ∧
    Int.fract (timestampOf c8Dt) = 111 / 1000 ∧
    ((111 : ℚ) / 1000) ≠ 946 / 1000 := by
  refine ⟨rfl, rfl, ?_, by norm_num⟩
  have he : epochIntSec c8Dt = 1672628645 := by decide
  have hm : c8Dt.microsecond = 111000 := rfl
  rw [show timestampOf c8Dt = ((1672628645 : ℤ) : ℚ) + (111000 : ℚ) / 1000000 by
        rw [timestampOf, he, hm]; norm_num]
  rw [Int.fract_int_add, Int.fract_eq_self.mpr (by constructor <;> norm_num)]
  norm_num

/-- Claim C8 (amended): whenever `_parse_filename_time` — the leftmost
match of the filename pattern — yields 946 ms and `read` returns
successfully, the returned absolute timestamp's sub-second component is
exactly 946 ms, the header's own sub-second value being overwritten
(the conclusion holds for every header date whatsoever). -/
theorem claim_c8 (path : String) (lines : List String) (nm : Option String)
    (q : ℚ) (hms : parseFilenameTime path = some 946)
    (hq : tstampOf (read path lines nm) = some q) :
    ∃ n : ℤ, q = n + 946 / 1000 := by
  simp only [read] at hq
  cases hh : headerStep lines with
  | error e => simp only [hh] at hq; simp [tstampOf] at hq
  | ok dtOpt =>
    simp only [hh] at hq
    cases dtOpt with
    | none =>
      have h0 : refineStep path none = none := by simp [refineStep, hms]
      simp only [h0] at hq
      simp [tstampOf] at hq
    | some dt =>
      have hr : refineStep path (some dt) =
          some { dt with microsecond := 946 * 1000 } := by
        simp [refineStep, hms]
      simp only [hr] at hq
      cases hb : bodyStep lines (resolveName nm (pathStem path))
          (timestampOf { dt with microsecond := 946 * 1000 }) with
      | error e => simp only [hb] at hq; simp [tstampOf] at hq
      | ok r =>
        simp only [hb] at hq
        obtain ⟨wl, rels, sp, hrr⟩ := bodyStep_ok hb
        subst hrr
        simp only [tstampOf, mkRes, Option.some.injEq] at hq
        refine ⟨epochIntSec { dt with microsecond := 946 * 1000 }, ?_⟩
        rw [← hq]
        simp only [timestampOf]
        norm_num

/-- Witness for C8 at a concrete path carrying `__13-42-52-946` as its
only pattern occurrence. -/
theorem claim_c8_witness :
    parseFilenameTime "b__13-42-52-946.txt" = some 946 ∧
    ∃ q, tstampOf (read "b__13-42-52-946.txt" c8Lines none) = some q ∧
      ∃ n : ℤ, q = n + 946 / 1000 :=
  ⟨rfl, _, rfl, claim_c8 "b__13-42-52-946.txt" c8Lines none _ rfl rfl⟩

/-! ## Claim C9 — comma-decimal normalisation -/

/-- The six Python whitespace characters are not digits. -/
theorem digit_not_pyspace {c : Char} (h : c.isDigit = true) :
    isPySpace c = false := by
  by_contra hn
  rw [Bool.not_eq_false] at hn
  have hm := of_decide_eq_true hn
  fin_cases hm <;> exact absurd h (by decide)

/-- A digit is unchanged by the comma-to-dot map. -/
theorem digit_comma_map {c : Char} (h : c.isDigit = true) :
    (if c = ',' then '.' else c) = c := by
  have hc : c ≠ ',' := fun h' => by subst h'; exact absurd h (by decide)
  simp [hc]

/-- The comma-to-dot map is the identity on digit strings. -/
theorem map_commaFix_id {l : List Char} (h : ∀ c ∈ l, c.isDigit = true) :
    l.map (fun c => if c = ',' then '.' else c) = l := by
  induction l with
  | nil => rfl
  | cons c cs ih =>
    simp only [List.map_cons]
    rw [digit_comma_map (h c (List.mem_cons_self _ _)),
      ih (fun x hx => h x (List.mem_cons_of_mem _ hx))]

/-- `commaFix` sends `a ++ "," ++ b` to `a ++ "." ++ b` on digit-only
`a`, `b`. -/
theorem commaFix_comma (a b : String)
    (ha : ∀ c ∈ a.data, c.isDigit = true)
    (hb : ∀ c ∈ b.data, c.isDigit = true) :
    commaFix (a ++ "," ++ b) = a ++ "." ++ b := by
  show (⟨((a.data ++ [','] ++ b.data)).map
    (fun c => if c = ',' then '.' else c)⟩ : String) = ⟨a.data ++ ['.'] ++ b.data⟩
  rw [List.map_append, List.map_append, map_commaFix_id ha, map_commaFix_id hb]
  rfl

/-- `commaFix` fixes `a ++ "." ++ b` on digit-only `a`, `b`. -/
theorem commaFix_dot (a b : String)
    (ha : ∀ c ∈ a.data, c.isDigit = true)
    (hb : ∀ c ∈ b.data, c.isDigit = true) :
    commaFix (a ++ "." ++ b) = a ++ "." ++ b := by
  show (⟨((a.data ++ ['.'] ++ b.data)).map
    (fun c => if c = ',' then '.' else c)⟩ : String) = ⟨a.data ++ ['.'] ++ b.data⟩
  rw [List.map_append, List.map_append, map_commaFix_id ha, map_commaFix_id hb]
  rfl

/-- Every character of `a ++ sep ++ b` is non-whitespace when `a`, `b`
are digit strings and `sep` is a comma or dot. -/
theorem token_no_ws {a b : String} {sep : Char}
    (ha : ∀ c ∈ a.data, c.isDigit = true)
    (hb : ∀ c ∈ b.data, c.isDigit = true)
    (hsep : isPySpace sep = false) :
    ∀ c ∈ a.data ++ [sep] ++ b.data, isPySpace c = false := by
  intro c hc
  rcases List.mem_append.mp hc with hc' | hc'
  · rcases List.mem_append.mp hc' with hc'' | hc''
    · exact digit_not_pyspace (ha c hc'')
    · rcases List.mem_singleton.mp hc'' with rfl
      exact hsep
  · exact digit_not_pyspace (hb c hc')

/-- `dropWhile` is the identity on lists with no whitespace. -/
theorem dropWhile_no_ws {l : List Char} (h : ∀ c ∈ l, isPySpace c = false) :
    l.dropWhile isPySpace = l := by
  cases l with
  | nil => rfl
  | cons c cs => simp [List.dropWhile_cons, h c (List.mem_cons_self _ _)]

/-- `stripChars` is the identity on lists with no whitespace. -/
theorem stripChars_no_ws {l : List Char} (h : ∀ c ∈ l, isPySpace c = false) :
    stripChars l = l := by
  unfold stripChars
  rw [dropWhile_no_ws h,
    dropWhile_no_ws (fun c hc => h c (List.mem_reverse.mp hc)),
    List.reverse_reverse]

/-- The whitespace-run splitter returns one token on separator-free
input. -/
theorem splitWsGo_no_ws {l : List Char} (acc : List Char)
    (h : ∀ c ∈ l, isPySpace c = false) (hne : l ≠ [] ∨ acc ≠ []) :
    splitWsGo l acc = [acc.reverse ++ l] := by
  induction l generalizing acc with
  | nil =>
    rcases hne with h' | h'
    · exact absurd rfl h'
    · simp [splitWsGo, h']
  | cons c cs ih =>
    have hc := h c (List.mem_cons_self _ _)
    simp only [splitWsGo, hc]
    rw [if_neg (by simp)]
    rw [ih (c :: acc) (fun x hx => h x (List.mem_cons_of_mem _ hx))
      (Or.inr (by simp))]
    simp

/-- Claim C9: at every numeric-conversion site of the reader — the
wavelength row (`_parse_float_row`), the intensity vectors (`vals`
conversion), and the bare-number row-time fallback — a token written
with a comma decimal separator parses to the same value as the
corresponding dot-decimal token. -/
theorem claim_c9 (a b : String)
    (ha : ∀ c ∈ a.data, c.isDigit = true)
    (hb : ∀ c ∈ b.data, c.isDigit = true) :
    pyFloat (commaFix (a ++ "," ++ b)) = pyFloat (commaFix (a ++ "." ++ b)) ∧
    rowFallback (a ++ "," ++ b) = rowFallback (a ++ "." ++ b) ∧
    (∀ v, parse_float_row (a ++ "," ++ b) = .ok v ↔
      parse_float_row (a ++ "." ++ b) = .ok v) ∧
    (∀ v, parseVals (a ++ "," ++ b) = .ok v ↔
      parseVals (a ++ "." ++ b) = .ok v) := by
  have h1 := commaFix_comma a b ha hb
  have h2 := commaFix_dot a b ha hb
  have hpf : pyFloat (commaFix (a ++ "," ++ b)) =
      pyFloat (commaFix (a ++ "." ++ b)) := by rw [h1, h2]
  have hnoc : ∀ c ∈ (a ++ "," ++ b).data, isPySpace c = false :=
    token_no_ws ha hb (by decide)
  have hnod : ∀ c ∈ (a ++ "." ++ b).data, isPySpace c = false :=
    token_no_ws ha hb (by decide)
  have hdatac : (a ++ "," ++ b).data = a.data ++ [','] ++ b.data := rfl
  have hdatad : (a ++ "." ++ b).data = a.data ++ ['.'] ++ b.data := rfl
  have hstripc : pyStrip (a ++ "," ++ b) = (a ++ "," ++ b) := by
    show (⟨stripChars (a ++ "," ++ b).data⟩ : String) = _
    rw [stripChars_no_ws hnoc]
  have hstripd : pyStrip (a ++ "." ++ b) = (a ++ "." ++ b) := by
    show (⟨stripChars (a ++ "." ++ b).data⟩ : String) = _
    rw [stripChars_no_ws hnod]
  have hsplitc : pySplitWs (a ++ "," ++ b) = [a ++ "," ++ b] := by
    show (splitWsGo (a ++ "," ++ b).data []).map _ = _
    rw [splitWsGo_no_ws [] hnoc (Or.inl (by rw [hdatac]; simp))]
    rfl
  have hsplitd : pySplitWs (a ++ "." ++ b) = [a ++ "." ++ b] := by
    show (splitWsGo (a ++ "." ++ b).data []).map _ = _
    rw [splitWsGo_no_ws [] hnod (Or.inl (by rw [hdatad]; simp))]
    rfl
  refine ⟨hpf, ?_, ?_, ?_⟩
  · unfold rowFallback
    rw [h1, h2]
  · intro v
    unfold parse_float_row
    rw [hstripc, hstripd, hsplitc, hsplitd]
    simp only [floatRowGo, floatTok, h1, h2]
    cases pyFloat (a ++ "." ++ b) <;> simp
  · intro v
    unfold parseVals
    rw [hsplitc, hsplitd]
    simp only [floatRowGo, floatTok, h1, h2]
    cases pyFloat (a ++ "." ++ b) <;> simp

/-- Witness for C9 at the concrete tokens `"1,23"`/`"1.23"`. -/
theorem claim_c9_witness :
    pyFloat (commaFix ("1" ++ "," ++ "23")) =
      pyFloat (commaFix ("1" ++ "." ++ "23")) ∧
    rowFallback ("1" ++ "," ++ "23") = rowFallback ("1" ++ "." ++ "23") :=
  ⟨(claim_c9 "1" "23" (by decide) (by decide)).1,
   (claim_c9 "1" "23" (by decide) (by decide)).2.1⟩

/-! ## Claim C10 — falsy `name` argument -/

/-- A successful `read` names its result by the resolved name. -/
theorem read_ok_name {path : String} {lines : List String}
    {nmo : Option String} {r : Result} (h : read path lines nmo = .ok r) :
    r.name = resolveName nmo (pathStem path) := by
  simp only [read] at h
  cases hh : headerStep lines with
  | error e => simp only [hh] at h; exact absurd h (by simp)
  | ok dtOpt =>
    simp only [hh] at h
    cases hr : refineStep path dtOpt with
    | none => simp only [hr] at h; exact absurd h (by simp)
    | some dt =>
      simp only [hr] at h
      obtain ⟨wl, rels, sp, hrr⟩ := bodyStep_ok h
      subst hrr
      rfl

/-- Claim C10: calling `read` with the empty string as `name` — a falsy
value, like the omitted `None` default — behaves exactly like omitting
it: `name or path_to_file.stem` resolves to the file's base name without
extension in both cases, and the whole result is identical. -/
theorem claim_c10 (path : String) (lines : List String) :
    read path lines (some "") = read path lines none ∧
    (isOkB (read path lines (some "")) = true →
      nameOf (read path lines (some "")) = some (pathStem path)) := by
  constructor
  · simp [read, resolveName]
  · intro hok
    cases hR : read path lines (some "") with
    | error e => rw [hR] at hok; simp [isOkB] at hok
    | ok r =>
      have hn := read_ok_name hR
      simp [nameOf, hn, resolveName]

/-- Witness for C10 at a concrete well-formed file. -/
theorem claim_c10_witness :
    read "dir/p.txt" c10Lines (some "") = read "dir/p.txt" c10Lines none ∧
    nameOf (read "dir/p.txt" c10Lines (some "")) =
      some (pathStem "dir/p.txt") ∧
    pathStem "dir/p.txt" = "p" :=
  ⟨(claim_c10 "dir/p.txt" c10Lines).1,
   (claim_c10 "dir/p.txt" c10Lines).2 rfl, rfl⟩

end OceanView

